import Mathlib

/-!
Verification development for the SCB statistical-API client
(`src/api-client.ts`, second/current revision of `SCBApiClient`).

The client code is shallowly embedded: JavaScript objects become
association lists in insertion order (assignment to an existing key
overwrites in place, a new key is appended), `Date` timestamps become
`Int` milliseconds, JSON numbers become `Int`, nullable/optional JSON
fields become `Option`, and a method that can `throw` is modelled with
an explicit success flag or an `Except` argument standing for the
outcome of the external fetch.
-/

/-- Embedding of `String.prototype.toLowerCase` restricted to the characters
that occur in the translation tables (ASCII letters and the Swedish
letters Å, Ä, Ö). -/
def jsCharToLower (c : Char) : Char :=
  if 'A' ≤ c ∧ c ≤ 'Z' then Char.ofNat (c.toNat + 32)
  else if c = 'Å' then 'å'
  else if c = 'Ä' then 'ä'
  else if c = 'Ö' then 'ö'
  else c

/-- JavaScript `toLowerCase` on whole strings. -/
def jsToLower (s : String) : String :=
  String.mk (s.data.map jsCharToLower)

/-- JavaScript object property lookup on an insertion-ordered association list. -/
def lookupAssoc {α : Type} : List (String × α) → String → Option α
  | [], _ => none
  | p :: t, k => if p.1 = k then some p.2 else lookupAssoc t k

/-- JavaScript `Array.prototype.join(", ")`. -/
def joinComma : List String → String
  | [] => ""
  | [s] => s
  | s :: rest => s ++ ", " ++ joinComma rest

/-- JavaScript object assignment `m[k] = v`: overwrite in place when the key
exists, append otherwise. -/
def objSet {α : Type} (m : List (String × α)) (k : String) (v : α) : List (String × α) :=
  if m.any (fun p => p.1 == k) then m.map (fun p => if p.1 == k then (k, v) else p)
  else m ++ [(k, v)]

/-- Character-list core of JavaScript `String.prototype.includes`. -/
def listIncludes (needle : List Char) : List Char → Bool
  | [] => needle.isEmpty
  | c :: t => List.isPrefixOf needle (c :: t) || listIncludes needle t

/-- JavaScript `hay.includes(needle)`. -/
def strIncludes (hay needle : String) : Bool :=
  listIncludes needle.data hay.data

/-- JavaScript `value.replace('-', 'M')`: replace the first occurrence only. -/
def replaceFirstDash : List Char → List Char
  | [] => []
  | c :: t => if c == '-' then 'M' :: t else c :: replaceFirstDash t

/-- The regular-expression test `value.match(/^\d\x7b4\x7d$/)`. -/
def matchesYear (s : String) : Bool :=
  s.length == 4 && s.data.all (fun c => c.isDigit)

/-- The regular-expression test `value.match(/^\d\x7b4\x7d-\d\x7b2\x7d$/)`. -/
def matchesYearMonth (s : String) : Bool :=
  match s.data with
  | [a, b, c, d, e, f, g] =>
    a.isDigit && b.isDigit && c.isDigit && d.isDigit && e == '-' && f.isDigit && g.isDigit
  | _ => false

/-! ## Data model (`src/types.ts`) -/

/-- `RateLimitInfo` from `types.ts`; `resetTime` is a millisecond timestamp,
`timeWindow` is in seconds. -/
structure RateLimitInfo where
  remaining : Int
  resetTime : Int
  maxCalls : Int
  timeWindow : Int
deriving DecidableEq

/-- The mutable rate-limiting fields of `SCBApiClient`. -/
structure ClientState where
  rateLimitInfo : Option RateLimitInfo
  requestCount : Int
  windowStartTime : Int
deriving DecidableEq

/-- `category` of a JSON-stat2 dimension: `index` and `label` records in
insertion order. -/
structure Category where
  index : List (String × Int)
  label : List (String × String)
deriving DecidableEq

/-- One dimension definition of a JSON-stat2 dataset. -/
structure DimDef where
  label : String
  category : Category
deriving DecidableEq

/-- The parts of `Dataset` (JSON-stat2) used by the client logic; `dimension`
and `value` are optional because `transformToStructuredData` guards on their
absence. -/
structure Dataset where
  id : List String
  label : String
  source : Option String
  updated : Option String
  size : List Int
  dimension : Option (List (String × DimDef))
  value : Option (List (Option Int))
deriving DecidableEq

/-! ## Rate limiting (`constructor`, `initializeRateLimit`, `checkRateLimit`,
request recording in `makeRequest` / `getTableData`) -/

/-- The client right after construction: no rate-limit info, zero requests,
`windowStartTime = new Date()` at construction time. -/
def mkClient (constructTime : Int) : ClientState :=
  { rateLimitInfo := none, requestCount := 0, windowStartTime := constructTime }

/-- `initializeRateLimit`: `cfg = some (maxCallsPerTimeWindow, timeWindow)`
models a successful config fetch; `cfg = none` models the fallback paths
(fetch failure or non-ok response), which use the defaults 30 calls / 10 s. -/
def initInfo (now : Int) (cfg : Option (Int × Int)) : RateLimitInfo :=
  match cfg with
  | some c =>
    { remaining := c.1, resetTime := now + c.2 * 1000, maxCalls := c.1, timeWindow := c.2 }
  | none =>
    { remaining := 30, resetTime := now + 10000, maxCalls := 30, timeWindow := 10 }

/-- The `rateLimitInfo` value `checkRateLimit` sees after its lazy
initialization step. -/
def effectiveInfo (now : Int) (cfg : Option (Int × Int)) (s : ClientState) : RateLimitInfo :=
  match s.rateLimitInfo with
  | some i => i
  | none => initInfo now cfg

/-- `checkRateLimit`: lazily initialize, reset the window when
`now >= resetTime`, then admit iff `requestCount < maxCalls` (the source
throws when `requestCount >= maxCalls`).  The returned state includes the
reset mutations even when the check rejects, exactly as in the source. -/
def checkRateLimit (now : Int) (cfg : Option (Int × Int)) (s : ClientState) :
    ClientState × Bool :=
  let info := effectiveInfo now cfg s
  if info.resetTime ≤ now then
    let info2 : RateLimitInfo :=
      { info with resetTime := now + info.timeWindow * 1000, remaining := info.maxCalls }
    ({ rateLimitInfo := some info2, requestCount := 0, windowStartTime := now },
     decide (0 < info2.maxCalls))
  else
    ({ s with rateLimitInfo := some info }, decide (s.requestCount < info.maxCalls))

/-- The post-dispatch bookkeeping `this.requestCount++` and
`remaining = Math.max(0, maxCalls - requestCount)` shared by `makeRequest`
and `getTableData`. -/
def recordCall (s : ClientState) : ClientState :=
  let rc := s.requestCount + 1
  { s with
    requestCount := rc,
    rateLimitInfo := s.rateLimitInfo.map (fun i => { i with remaining := max 0 (i.maxCalls - rc) }) }

/-- Free interleavings of admission checks and call recordings. -/
inductive RLOp where
  | check : Int → Option (Int × Int) → RLOp
  | record : RLOp
deriving DecidableEq

/-- One free step. A rejecting check still keeps the state mutations of the
reset branch, as in the source. -/
def stepOp (s : ClientState) : RLOp → ClientState
  | .check now cfg => (checkRateLimit now cfg s).1
  | .record => recordCall s

/-- Run a free interleaving. -/
def runOps (ops : List RLOp) (s : ClientState) : ClientState :=
  ops.foldl stepOp s

/-- Guarded operations, as actually issued by the client: either a bare
admission check, or a full call (`makeRequest` / the POST path of
`getTableData`) that records exactly when the check admitted. -/
inductive GOp where
  | checkOnly : Int → Option (Int × Int) → GOp
  | call : Int → Option (Int × Int) → GOp
deriving DecidableEq

/-- One guarded step. -/
def stepG (s : ClientState) : GOp → ClientState
  | .checkOnly now cfg => (checkRateLimit now cfg s).1
  | .call now cfg =>
    let r := checkRateLimit now cfg s
    if r.2 then recordCall r.1 else r.1

/-- Run a guarded sequence. -/
def runG (ops : List GOp) (s : ClientState) : ClientState :=
  ops.foldl stepG s

/-- A config fetch outcome advertising a nonnegative call budget. -/
def goodCfg : Option (Int × Int) → Prop
  | none => True
  | some c => 0 ≤ c.1

/-- A guarded operation whose config outcome is well formed. -/
def goodG : GOp → Prop
  | .checkOnly _ cfg => goodCfg cfg
  | .call _ cfg => goodCfg cfg

/-- The used counter never exceeds the advertised capacity. -/
def usedWithinCapacity (s : ClientState) : Prop :=
  ∀ i, s.rateLimitInfo = some i → s.requestCount ≤ i.maxCalls

/-- Internal invariant of the guarded system. -/
def rlInv (s : ClientState) : Prop :=
  match s.rateLimitInfo with
  | none => s.requestCount = 0
  | some i => 0 ≤ i.maxCalls ∧ s.requestCount ≤ i.maxCalls

/-! ## Translators (`translateCommonVariables`, `translateCommonValues`) -/

/-- The `variableMapping` table of `translateCommonVariables`, in source order. -/
def variableMapping : List (String × String) :=
  [("år", "Tid"), ("månad", "Tid"), ("kön", "Kon"), ("ålder", "Alder"),
   ("län", "Region"), ("kommun", "Region"), ("utbildning", "UtbildningsNiva"),
   ("sysselsättning", "Sysselsattning"), ("inkomst", "Inkomst"),
   ("familjetyp", "Familjetyp"), ("civilstånd", "Civilstand"),
   ("year", "Tid"), ("time", "Tid"), ("month", "Tid"), ("sex", "Kon"),
   ("gender", "Kon"), ("age", "Alder"), ("county", "Region"),
   ("municipality", "Region"), ("education", "UtbildningsNiva"),
   ("employment", "Sysselsattning"), ("income", "Inkomst"),
   ("family_type", "Familjetyp"), ("marital_status", "Civilstand"),
   ("region", "Region"), ("alder", "Alder"), ("kon", "Kon"), ("tid", "Tid"),
   ("utbildningsniva", "UtbildningsNiva"), ("sysselsattning", "Sysselsattning"),
   ("civilstand", "Civilstand"), ("contentscode", "ContentsCode"),
   ("observations", "ContentsCode"), ("contents", "ContentsCode")]

/-- `variableMapping[key] || variableMapping[key.toLowerCase()] || key`. -/
def mapVariableKey (key : String) : String :=
  match lookupAssoc variableMapping key with
  | some v => v
  | none =>
    match lookupAssoc variableMapping (jsToLower key) with
    | some v => v
    | none => key

/-- `translateCommonVariables` (current revision, which ignores `lang`):
rebuild the selection object entry by entry under the mapped keys. -/
def translateCommonVariables (selection : List (String × List String)) :
    List (String × List String) :=
  selection.foldl (fun acc p => objSet acc (mapVariableKey p.1) p.2) []

/-- The `Alder` block of `valueMapping`. -/
def alderValueMap : List (String × String) :=
  [("total", "tot"), ("all", "tot"), ("totalt", "tot"), ("totals", "TotSA")]

/-- The `Tid` block of `valueMapping`. -/
def tidValueMap : List (String × String) :=
  [("latest", "2024"), ("recent", "2024"), ("current", "2024")]

/-- The `Kon` block of `valueMapping`. -/
def konValueMap : List (String × String) :=
  [("total", "tot"), ("all", "tot"), ("male", "1"), ("female", "2"),
   ("men", "1"), ("women", "2"), ("man", "1"), ("woman", "2")]

/-- The wildcard block `valueMapping["*"]`. -/
def starValueMap : List (String × String) :=
  [("total", "tot"), ("all", "*"), ("totalt", "tot"), ("alla", "*")]

/-- The outer `valueMapping` record of `translateCommonValues`. -/
def valueMapping : List (String × List (String × String)) :=
  [("Alder", alderValueMap), ("Tid", tidValueMap), ("Kon", konValueMap),
   ("*", starValueMap)]

/-- The general-mapping and time-format fallback of the `map` callback in
`translateCommonValues`. -/
def mapValueFallback (variableName value lowered : String) : String :=
  match (lookupAssoc valueMapping "*").bind (fun general => lookupAssoc general lowered) with
  | some w => w
  | none =>
    if variableName == "Tid" && matchesYear value then value
    else if variableName == "Tid" && matchesYearMonth value then
      String.mk (replaceFirstDash value.data)
    else value

/-- The `map` callback of `translateCommonValues` applied to one value. -/
def mapValue (variableName value : String) : String :=
  let lowered := jsToLower value
  match lookupAssoc valueMapping variableName with
  | some specific =>
    match lookupAssoc specific lowered with
    | some w => w
    | none => mapValueFallback variableName value lowered
  | none => mapValueFallback variableName value lowered

/-- `translateCommonValues(values, variableName)`. -/
def translateCommonValues (values : List String) (variableName : String) : List String :=
  values.map (mapValue variableName)

/-! ## Decoder (`transformToStructuredData`, `getDimensionBaseName`) -/

/-- The `nameMapping` table of `getDimensionBaseName`. -/
def dimensionNameMapping : List (String × String) :=
  [("Region", "region"), ("Alder", "age"), ("Kon", "sex"), ("Tid", "year"),
   ("UtbildningsNiva", "education_level"), ("ContentsCode", "observation_type"),
   ("Sysselsattning", "employment_status"), ("Civilstand", "marital_status"),
   ("Familjetyp", "family_type")]

/-- `getDimensionBaseName`: static dictionary, falling back to
`dimName.toLowerCase()`. -/
def getDimensionBaseName (dimName : String) : String :=
  (lookupAssoc dimensionNameMapping dimName).getD (jsToLower dimName)

/-- One decoded record: the dimension fields written by the inner loop of
`transformToStructuredData`, plus the numeric `value` field. -/
structure SRecord where
  fields : List (String × String)
  value : Int
deriving DecidableEq

/-- The inner loop of `transformToStructuredData`: iterate the dimensions from
last to first (the argument list is the reversed dimension list), with `temp`
as the running flat index, writing `<base>_code` and `<base>_name` into the
record object. -/
def buildFields : List (String × DimDef) → Nat → List (String × String) →
    List (String × String)
  | [], _, record => record
  | (dimName, dimDef) :: rest, temp, record =>
    let dimSize := dimDef.category.index.length
    let dimIndex := temp % dimSize
    let temp2 := temp / dimSize
    let codes := dimDef.category.index.map Prod.fst
    let code := codes.getD dimIndex ""
    let name :=
      match lookupAssoc dimDef.category.label code with
      | some l => if l = "" then code else l
      | none => code
    let base := getDimensionBaseName dimName
    let record2 := objSet (objSet record (base ++ "_code") code) (base ++ "_name") name
    buildFields rest temp2 record2

/-- The `forEach` over the flat value array: skip `null` entries, push one
record per non-null entry, `i` being the running flat index. -/
def transformRecordsAux (dims : List (String × DimDef)) :
    List (Option Int) → Nat → List SRecord
  | [], _ => []
  | none :: rest, i => transformRecordsAux dims rest (i + 1)
  | some v :: rest, i =>
    { fields := buildFields dims.reverse i [], value := v } ::
      transformRecordsAux dims rest (i + 1)

/-- The `summary` object of a transform result; the guard path of the source
returns an object with only `total_records` and `has_data`. -/
structure TransformSummary where
  total_records : Nat
  non_null_records : Option Nat
  total_value : Option Int
  has_data : Bool
deriving DecidableEq

/-- The `metadata` object of a transform result; `data_shape` and
`dimensions` are produced only on the normal path. -/
structure TransformMetadata where
  source : String
  updated : Option String
  table_name : String
  data_shape : Option (List Int)
  dimensions : Option (List (String × String × Nat))
deriving DecidableEq

/-- The result object of `transformToStructuredData` (the impure
`requested_at` timestamp is omitted). -/
structure TransformResult where
  query_selection : Option (List (String × List String))
  query_table_id : Option String
  data : List SRecord
  metadata : TransformMetadata
  summary : TransformSummary
deriving DecidableEq

/-- `jsonStat2Data.source || "Statistics Sweden"`. -/
def sourceOrDefault (src : Option String) : String :=
  match src with
  | some s => if s = "" then "Statistics Sweden" else s
  | none => "Statistics Sweden"

/-- `transformToStructuredData`. -/
def transformToStructuredData (ds : Dataset)
    (selection : Option (List (String × List String))) : TransformResult :=
  match ds.value, ds.dimension with
  | some vs, some dims =>
    let records := transformRecordsAux dims vs 0
    let totalRecords := records.length
    let totalValue := records.foldl (fun sum r => sum + r.value) 0
    { query_selection := some (selection.getD []),
      query_table_id := ds.id.head?,
      data := records,
      metadata :=
        { source := sourceOrDefault ds.source,
          updated := ds.updated,
          table_name := ds.label,
          data_shape := some ds.size,
          dimensions := some (dims.map (fun p => (p.1, p.2.label, p.2.category.index.length))) },
      summary :=
        { total_records := totalRecords,
          non_null_records := some totalRecords,
          total_value := some totalValue,
          has_data := decide (0 < totalRecords) } }
  | _, _ =>
    { query_selection := selection,
      query_table_id := none,
      data := [],
      metadata :=
        { source := sourceOrDefault ds.source,
          updated := ds.updated,
          table_name := ds.label,
          data_shape := none,
          dimensions := none },
      summary :=
        { total_records := 0,
          non_null_records := none,
          total_value := none,
          has_data := false } }

/-- Product of the per-dimension cardinalities. -/
def prodSizes (dims : List (String × DimDef)) : Nat :=
  (dims.map (fun p => p.2.category.index.length)).prod

/-! Specification-side decoder, written from the words of the spec:
"iterate dimensions from last to first, at each step take
`coord = temp mod size[i]`, `temp = floor(temp / size[i])`". -/

/-- Mixed-radix digits of `f`, fastest-varying radix first.  Applied to the
reversed size sequence this yields the coordinates of the dimensions from
last to first. -/
def coordsRev : List Nat → Nat → List Nat
  | [], _ => []
  | s :: rest, f => (f % s) :: coordsRev rest (f / s)

/-- Build the record fields of the specification decoder: the dimension list
is given from last to first together with the coordinate of each dimension;
the coordinate indexes the ordered value codes, the code indexes the labels
(falling back to the code), and the keys are derived with
`getDimensionBaseName`. -/
def buildFieldsSpec : List (String × DimDef) → List Nat → List (String × String) →
    List (String × String)
  | (dimName, dimDef) :: rest, c :: cs, record =>
    let codes := dimDef.category.index.map Prod.fst
    let code := codes.getD c ""
    let name :=
      match lookupAssoc dimDef.category.label code with
      | some l => if l = "" then code else l
      | none => code
    let base := getDimensionBaseName dimName
    let record2 := objSet (objSet record (base ++ "_code") code) (base ++ "_name") name
    buildFieldsSpec rest cs record2
  | _, _, record => record

/-- The specification record for flat index `f` with value `v`. -/
def specRecord (dims : List (String × DimDef)) (f : Nat) (v : Int) : SRecord :=
  { fields :=
      buildFieldsSpec dims.reverse
        (coordsRev ((dims.map (fun p => p.2.category.index.length)).reverse) f) [],
    value := v }

/-- The specification decoder: one record per non-null flat entry, in
ascending flat-index order. -/
def decodeSpec (dims : List (String × DimDef)) (vs : List (Option Int)) : List SRecord :=
  vs.enum.filterMap (fun p => p.2.map (fun v => specRecord dims p.1 v))

/-! ## Selection validation (`validateSelection`) -/

/-- The result object of `validateSelection`. -/
structure ValidationResult where
  isValid : Bool
  errors : List String
  suggestions : List String
  translatedSelection : Option (List (String × List String))
deriving DecidableEq

/-- Fallback dimension definition for the (unreachable) case where a variable
known to be in the table cannot be looked up; mirrors the non-null assertion
`metadata.dimension![v]` of the source. -/
def emptyDimDef : DimDef :=
  { label := "", category := { index := [], label := [] } }

/-- The per-value check of `validateSelection`: wildcard and the
`TOP(` / `BOTTOM(` / `RANGE(` expression forms pass, unknown values produce
one error and one suggestion. -/
def checkValue (tableId varCode : String) (availableValues : List String)
    (value : String) : List String × List String :=
  if value == "*" || value.startsWith "TOP(" || value.startsWith "BOTTOM(" ||
      value.startsWith "RANGE(" then
    ([], [])
  else if availableValues.contains value then ([], [])
  else
    let similarValues :=
      (availableValues.filter (fun v => strIncludes (jsToLower v) (jsToLower value))).take 3
    (["Value \"" ++ value ++ "\" not found for variable \"" ++ varCode ++ "\""],
     if similarValues.isEmpty then
       ["Use scb_get_table_variables with tableId=\"" ++ tableId ++
        "\" and variableName=\"" ++ varCode ++ "\" to see all values"]
     else
       ["For \"" ++ varCode ++ "\", did you mean: " ++ joinComma similarValues ++ "?"])

/-- The per-variable check of `validateSelection`: unknown variables produce a
not-found error with a did-you-mean suggestion; known variables have each of
their values checked. -/
def checkVariable (tableId : String) (dims : List (String × DimDef))
    (availableVariables : List String) (varCode : String) (values : List String) :
    List String × List String :=
  if availableVariables.contains varCode then
    let varDef := (lookupAssoc dims varCode).getD emptyDimDef
    let availableValues := varDef.category.index.map Prod.fst
    values.foldl
      (fun acc v =>
        let r := checkValue tableId varCode availableValues v
        (acc.1 ++ r.1, acc.2 ++ r.2))
      ([], [])
  else
    let similar := availableVariables.filter (fun v =>
      strIncludes (jsToLower v) (jsToLower varCode) ||
      strIncludes (jsToLower ((lookupAssoc dims v).getD emptyDimDef).label) (jsToLower varCode))
    (["Variable \"" ++ varCode ++ "\" not found in table"],
     if similar.isEmpty then ["Available variables: " ++ joinComma availableVariables]
     else
       ["Did you mean: " ++ joinComma (similar.map (fun v => "\"" ++ v ++ "\"")) ++ "?"])

/-- The translated-and-value-mapped selection computed at the top of the
`try` block of `validateSelection`. -/
def resolveSelection (selection : List (String × List String)) :
    List (String × List String) :=
  (translateCommonVariables selection).map
    (fun p => (p.1, translateCommonValues p.2 p.1))

/-- The body of the `try` block of `validateSelection`, given the fetched
metadata. -/
def validateWithMetadata (tableId : String) (metadata : Dataset)
    (selection : List (String × List String)) : ValidationResult :=
  let finalSel := resolveSelection selection
  match metadata.dimension with
  | none =>
    { isValid := false,
      errors := ["Table metadata not available for validation"],
      suggestions := ["Try using scb_get_table_info first"],
      translatedSelection := none }
  | some dims =>
    let availableVariables := dims.map Prod.fst
    let selectedVariables := finalSel.map Prod.fst
    let missingVariables :=
      availableVariables.filter (fun v => !(selectedVariables.contains v))
    let missingPart : List String × List String :=
      if missingVariables.isEmpty then ([], [])
      else
        (["Missing mandatory variables: " ++ joinComma missingVariables],
         ["SCB tables require all dimensions to be specified. Add these variables to your selection: " ++
            joinComma missingVariables,
          "Use \"*\" as value to select all values for a dimension, e.g. \x7b\"" ++
            (missingVariables.head?).getD "" ++ "\": [\"*\"]\x7d"])
    let varPart :=
      finalSel.foldl
        (fun acc p =>
          let r := checkVariable tableId dims availableVariables p.1 p.2
          (acc.1 ++ r.1, acc.2 ++ r.2))
        ([], [])
    let errors := missingPart.1 ++ varPart.1
    let suggestions := missingPart.2 ++ varPart.2
    { isValid := errors.isEmpty,
      errors := errors,
      suggestions := suggestions,
      translatedSelection := some finalSel }

/-- `validateSelection`: the metadata fetch is the only fallible step of the
`try` block, so its outcome is passed in as an `Except` value; the `catch`
branch is the error case. -/
def validateSelection (fetchResult : Except String Dataset) (tableId : String)
    (selection : List (String × List String)) : ValidationResult :=
  match fetchResult with
  | .error msg =>
    { isValid := false,
      errors := ["Validation failed: " ++ msg],
      suggestions := ["Try checking if the table ID is correct with scb_get_table_info"],
      translatedSelection := none }
  | .ok metadata => validateWithMetadata tableId metadata selection

/-! ## Concrete example data (used by witnesses and counterexamples) -/

/-- A two-code region dimension, as in the specification example. -/
def dimRegionEx : DimDef :=
  { label := "region",
    category := { index := [("1484", 0), ("0180", 1)],
                  label := [("1484", "Kungsbacka"), ("0180", "Stockholm")] } }

/-- A two-code time dimension, as in the specification example. -/
def dimTidEx : DimDef :=
  { label := "year",
    category := { index := [("2023", 0), ("2024", 1)],
                  label := [("2023", "2023"), ("2024", "2024")] } }

/-- The two-dimensional metadata of the specification example. -/
def dimsEx : List (String × DimDef) := [("Region", dimRegionEx), ("Tid", dimTidEx)]

/-- The specification example dataset: size 2 by 2, flat values
`[10, null, 30, 40]`. -/
def dsEx : Dataset :=
  { id := ["TAB0001"], label := "Example table", source := some "SCB",
    updated := none, size := [2, 2], dimension := some dimsEx,
    value := some [some 10, none, some 30, some 40] }

/-- A dataset whose flat value array (3 entries) does not match the product
of the dimension sizes (2). -/
def dsBadEx : Dataset :=
  { id := ["TAB0002"], label := "Mismatched table", source := none,
    updated := none, size := [2], dimension := some [("Tid", dimTidEx)],
    value := some [some 10, some 20, some 30] }

/-- A dataset with no flat value array. -/
def dsNoValueEx : Dataset :=
  { id := ["TAB0003"], label := "No data", source := none, updated := none,
    size := [2], dimension := some [("Tid", dimTidEx)], value := none }

/-- A free interleaving in which two admission checks both pass before
either call is recorded (two overlapping `makeRequest` invocations). -/
def freeOpsEx : List RLOp :=
  [RLOp.check 0 (some (1, 10)), RLOp.check 0 (some (1, 10)), RLOp.record, RLOp.record]

/-- A guarded sequence of two admitted calls against a budget of 2. -/
def goodOpsEx : List GOp := [GOp.call 0 (some (2, 10)), GOp.call 1 (some (2, 10))]

/-! ## Helper lemmas -/

theorem lookupAssoc_mem {α : Type} : ∀ {l : List (String × α)} {k : String} {v : α},
    lookupAssoc l k = some v → (k, v) ∈ l := by
  intro l
  induction l with
  | nil => intro k v h; simp [lookupAssoc] at h
  | cons p t ih =>
    intro k v h
    simp only [lookupAssoc] at h
    split at h
    · next heq =>
      cases h
      subst heq
      cases p
      exact List.mem_cons_self _ _
    · exact List.mem_cons_of_mem _ (ih h)

theorem joinComma_contains {a : String} : ∀ {l : List String}, a ∈ l →
    ∃ p q, joinComma l = p ++ (a ++ q) := by
  intro l
  induction l with
  | nil => intro h; simp at h
  | cons b t ih =>
    intro h
    rcases List.mem_cons.mp h with rfl | ht
    · cases t with
      | nil =>
        refine ⟨"", "", ?_⟩
        simp [joinComma]
      | cons c t2 =>
        refine ⟨"", ", " ++ joinComma (c :: t2), ?_⟩
        simp [joinComma, String.append_assoc]
    · have hne : t ≠ [] := List.ne_nil_of_mem ht
      rcases ih ht with ⟨p, q, hpq⟩
      cases t with
      | nil => exact absurd rfl hne
      | cons c t2 =>
        refine ⟨b ++ ", " ++ p, q, ?_⟩
        simp only [joinComma]
        rw [hpq]
        simp [String.append_assoc]

theorem buildFields_eq_spec (l : List (String × DimDef)) :
    ∀ (f : Nat) (acc : List (String × String)),
      buildFields l f acc =
        buildFieldsSpec l (coordsRev (l.map (fun p => p.2.category.index.length)) f) acc := by
  induction l with
  | nil => intro f acc; rfl
  | cons hd tl ih =>
    intro f acc
    cases hd with
    | mk dimName dimDef =>
      simp only [buildFields, List.map_cons, coordsRev, buildFieldsSpec]
      exact ih _ _

theorem specRecord_eq_buildFields (dims : List (String × DimDef)) (f : Nat) (v : Int) :
    specRecord dims f v = { fields := buildFields dims.reverse f [], value := v } := by
  unfold specRecord
  rw [buildFields_eq_spec, List.map_reverse]

theorem transformRecordsAux_eq (dims : List (String × DimDef)) :
    ∀ (vs : List (Option Int)) (i : Nat),
      transformRecordsAux dims vs i =
        (List.enumFrom i vs).filterMap (fun p => p.2.map (fun v => specRecord dims p.1 v)) := by
  intro vs
  induction vs with
  | nil => intro i; rfl
  | cons hd tl ih =>
    intro i
    cases hd with
    | none =>
      simp only [transformRecordsAux, List.enumFrom, List.filterMap_cons, Option.map_none']
      exact ih (i + 1)
    | some v =>
      simp only [transformRecordsAux, List.enumFrom, List.filterMap_cons, Option.map_some']
      rw [ih (i + 1), specRecord_eq_buildFields]

theorem transformRecordsAux_length (dims : List (String × DimDef)) :
    ∀ (vs : List (Option Int)) (i : Nat),
      (transformRecordsAux dims vs i).length = (vs.filter Option.isSome).length := by
  intro vs
  induction vs with
  | nil => intro i; rfl
  | cons hd tl ih =>
    intro i
    cases hd with
    | none => simpa [transformRecordsAux, List.filter] using ih (i + 1)
    | some v => simpa [transformRecordsAux, List.filter] using ih (i + 1)

/-! ## Claim theorems -/

/-- C2: for every payload whose flat value array length equals the product of
the per-dimension cardinalities, `transformToStructuredData` emits exactly one
record per non-null entry in ascending flat-index order, each record being the
mixed-radix specification record (last dimension fastest-varying, codes from
the ordered value codes, names from the labels falling back to the code, keys
derived via `getDimensionBaseName`, value equal to the flat entry). -/
theorem c2_decoder_refines_spec (ds : Dataset) (dims : List (String × DimDef))
    (vs : List (Option Int)) (sel : Option (List (String × List String)))
    (hdim : ds.dimension = some dims) (hval : ds.value = some vs)
    (hlen : vs.length = prodSizes dims) :
    (transformToStructuredData ds sel).data = decodeSpec dims vs := by
  simp only [transformToStructuredData, hdim, hval]
  rw [transformRecordsAux_eq]
  rfl

/-- Witness for C2 at the specification example payload (size 2 by 2, values
`[10, null, 30, 40]`). -/
theorem c2_decoder_witness :
    ([some 10, none, some 30, some 40] : List (Option Int)).length = prodSizes dimsEx ∧
    (transformToStructuredData dsEx none).data =
      decodeSpec dimsEx [some 10, none, some 30, some 40] :=
  ⟨by decide, c2_decoder_refines_spec dsEx dimsEx _ none rfl rfl (by decide)⟩

/-- C5 (amended): `transformToStructuredData` performs no length check —
whenever `value` and `dimension` are present it returns normally and emits
exactly one record per non-null entry of the flat array, even when the array
length differs from the product of the dimension sizes; no MalformedPayload
error is raised. -/
theorem c5_no_length_check (ds : Dataset) (dims : List (String × DimDef))
    (vs : List (Option Int)) (sel : Option (List (String × List String)))
    (hdim : ds.dimension = some dims) (hval : ds.value = some vs) :
    (transformToStructuredData ds sel).data.length = (vs.filter Option.isSome).length := by
  simp only [transformToStructuredData, hdim, hval]
  exact transformRecordsAux_length dims vs 0

/-- Counterexample for C5 as stated: `dsBadEx` has 3 flat values but a size
product of 2, yet the decoder silently produces 3 records and flags
nothing. -/
theorem c5_mismatch_silently_decoded :
    ([some 10, some 20, some 30] : List (Option Int)).length ≠ prodSizes [("Tid", dimTidEx)] ∧
    (transformToStructuredData dsBadEx none).data.length = 3 := by decide

/-- Witness for C5 (amended) at the mismatched payload. -/
theorem c5_no_length_check_witness :
    dsBadEx.dimension = some [("Tid", dimTidEx)] ∧
    dsBadEx.value = some [some 10, some 20, some 30] ∧
    (transformToStructuredData dsBadEx none).data.length =
      (([some 10, some 20, some 30] : List (Option Int)).filter Option.isSome).length :=
  ⟨rfl, rfl, c5_no_length_check dsBadEx _ _ none rfl rfl⟩

/-- C9: when two distinct selection keys map to the same canonical dimension
code, `translateCommonVariables` keeps a single entry for that code holding
the later-enumerated key's values; the earlier key's values are discarded. -/
theorem c9_collision_last_wins :
    translateCommonVariables [("county", ["01"]), ("municipality", ["0180"])] =
      [("Region", ["0180"])] ∧
    translateCommonVariables [("year", ["2023"]), ("month", ["2023M01"])] =
      [("Tid", ["2023M01"])] := by decide

/-- C10: for a dataset whose value array is null or absent, or whose dimension
mapping is absent, `transformToStructuredData` returns an empty data sequence
and a summary with `total_records = 0` and `has_data = false`. -/
theorem c10_empty_payload_guard (ds : Dataset)
    (sel : Option (List (String × List String)))
    (h : ds.value = none ∨ ds.dimension = none) :
    (transformToStructuredData ds sel).data = [] ∧
    (transformToStructuredData ds sel).summary.total_records = 0 ∧
    (transformToStructuredData ds sel).summary.has_data = false := by
  rcases h with h | h
  · simp [transformToStructuredData, h]
  · cases hv : ds.value with
    | none => simp [transformToStructuredData, hv]
    | some vs => simp [transformToStructuredData, hv, h]

/-- Witness for C10 at a dataset with `value = none`. -/
theorem c10_empty_payload_witness :
    (dsNoValueEx.value = none ∨ dsNoValueEx.dimension = none) ∧
    ((transformToStructuredData dsNoValueEx none).data = [] ∧
     (transformToStructuredData dsNoValueEx none).summary.total_records = 0 ∧
     (transformToStructuredData dsNoValueEx none).summary.has_data = false) :=
  ⟨Or.inl rfl, c10_empty_payload_guard dsNoValueEx none (Or.inl rfl)⟩

/-- C4: `validateSelection` never propagates an exception — the fallible
metadata fetch outcome is consumed as a value, and the catch path converts
any raised message into an ordinary `ValidationResult` with `isValid = false`,
exactly one error string, and one suggestion. -/
theorem c4_validation_never_throws (msg tableId : String)
    (sel : List (String × List String)) :
    validateSelection (.error msg) tableId sel =
      { isValid := false,
        errors := ["Validation failed: " ++ msg],
        suggestions := ["Try checking if the table ID is correct with scb_get_table_info"],
        translatedSelection := none } ∧
    (validateSelection (.error msg) tableId sel).errors.length = 1 ∧
    (validateSelection (.error msg) tableId sel).suggestions.length = 1 :=
  ⟨rfl, rfl, rfl⟩

/-- C6 (amended): `validateSelection` returns the resolved selection only on
the normal completion path (regardless of validity there); the
metadata-unavailable early return and the caught-exception path omit
`translatedSelection`. -/
theorem c6_translated_selection_paths (tableId msg : String) (ds : Dataset)
    (dims : List (String × DimDef)) (sel : List (String × List String)) :
    (validateSelection (.error msg) tableId sel).translatedSelection = none ∧
    (ds.dimension = none →
      (validateSelection (.ok ds) tableId sel).translatedSelection = none) ∧
    (ds.dimension = some dims →
      (validateSelection (.ok ds) tableId sel).translatedSelection =
        some (resolveSelection sel)) := by
  refine ⟨rfl, ?_, ?_⟩ <;> intro h <;> simp [validateSelection, validateWithMetadata, h]

/-- Counterexample for C6 as stated: on the caught-exception path the result
carries no translated selection. -/
theorem c6_catch_path_omits_selection :
    (validateSelection (.error "network down") "TAB0001"
        [("year", ["2024"])]).translatedSelection = none := rfl

/-- Witness for C6 (amended) on the normal path. -/
theorem c6_translated_selection_witness :
    dsEx.dimension = some dimsEx ∧
    (validateSelection (.ok dsEx) "TAB0001" [("region", ["1484"])]).translatedSelection =
      some (resolveSelection [("region", ["1484"])]) :=
  ⟨rfl, (c6_translated_selection_paths "TAB0001" "x" dsEx dimsEx
      [("region", ["1484"])]).2.2 rfl⟩

/-! ## Rate-limit invariant lemmas -/

theorem rlInv_mkClient (t : Int) : rlInv (mkClient t) := by
  simp [rlInv, mkClient]

theorem check_some (now : Int) (cfg : Option (Int × Int)) (s : ClientState) :
    ∃ i, (checkRateLimit now cfg s).1.rateLimitInfo = some i := by
  unfold checkRateLimit
  by_cases hr : (effectiveInfo now cfg s).resetTime ≤ now
  · simp [hr]
  · simp [hr]

theorem effectiveInfo_bounds (now : Int) (cfg : Option (Int × Int)) (s : ClientState)
    (hg : goodCfg cfg) (h : rlInv s) :
    0 ≤ (effectiveInfo now cfg s).maxCalls ∧
      s.requestCount ≤ (effectiveInfo now cfg s).maxCalls := by
  cases hs : s.rateLimitInfo with
  | some i =>
    unfold rlInv at h
    rw [hs] at h
    simpa [effectiveInfo, hs] using h
  | none =>
    have hrc0 : s.requestCount = 0 := by
      unfold rlInv at h
      rw [hs] at h
      exact h
    cases cfg with
    | none => simp [effectiveInfo, hs, initInfo, hrc0]
    | some c =>
      have hc : 0 ≤ c.1 := hg
      simp [effectiveInfo, hs, initInfo, hrc0, hc]

theorem check_preserves (now : Int) (cfg : Option (Int × Int)) (s : ClientState)
    (hg : goodCfg cfg) (h : rlInv s) :
    rlInv (checkRateLimit now cfg s).1 ∧
    ((checkRateLimit now cfg s).2 = true →
      ∀ i, (checkRateLimit now cfg s).1.rateLimitInfo = some i →
        (checkRateLimit now cfg s).1.requestCount < i.maxCalls) := by
  obtain ⟨hmc, hrc⟩ := effectiveInfo_bounds now cfg s hg h
  unfold checkRateLimit
  by_cases hr : (effectiveInfo now cfg s).resetTime ≤ now
  · simp only [hr, if_true]
    constructor
    · simp [rlInv, hmc]
    · intro hadm i hi
      simp only [Option.some.injEq] at hi
      subst hi
      simpa using of_decide_eq_true hadm
  · simp only [hr, if_false]
    constructor
    · simp [rlInv, hmc, hrc]
    · intro hadm i hi
      simp only [Option.some.injEq] at hi
      subst hi
      simpa using of_decide_eq_true hadm

theorem rlInv_recordCall (s : ClientState) (i : RateLimitInfo)
    (hs : s.rateLimitInfo = some i) (hmc : 0 ≤ i.maxCalls)
    (hlt : s.requestCount < i.maxCalls) : rlInv (recordCall s) := by
  unfold recordCall rlInv
  simp [hs]
  exact ⟨hmc, by omega⟩

theorem rlInv_stepG (s : ClientState) (op : GOp) (hg : goodG op) (h : rlInv s) :
    rlInv (stepG s op) := by
  cases op with
  | checkOnly now cfg => exact (check_preserves now cfg s hg h).1
  | call now cfg =>
    simp only [stepG]
    by_cases hadm : (checkRateLimit now cfg s).2 = true
    · rw [if_pos hadm]
      obtain ⟨i, hi⟩ := check_some now cfg s
      have hinv := (check_preserves now cfg s hg h).1
      have hlt := (check_preserves now cfg s hg h).2 hadm i hi
      have hmc : 0 ≤ i.maxCalls := by
        unfold rlInv at hinv
        rw [hi] at hinv
        exact hinv.1
      exact rlInv_recordCall _ i hi hmc hlt
    · rw [if_neg hadm]
      exact (check_preserves now cfg s hg h).1

theorem rlInv_runG : ∀ (ops : List GOp) (s : ClientState),
    (∀ op ∈ ops, goodG op) → rlInv s → rlInv (runG ops s) := by
  intro ops
  induction ops with
  | nil => intro s _ h; exact h
  | cons op t ih =>
    intro s hg h
    have h1 := rlInv_stepG s op (hg op (List.mem_cons_self _ _)) h
    exact ih _ (fun o ho => hg o (List.mem_cons_of_mem _ ho)) h1

theorem usedWithin_of_rlInv (s : ClientState) (h : rlInv s) : usedWithinCapacity s := by
  intro i hi
  unfold rlInv at h
  rw [hi] at h
  exact h.2

theorem check_reset_state (now : Int) (cfg : Option (Int × Int)) (s : ClientState)
    (hreset : (effectiveInfo now cfg s).resetTime ≤ now) :
    (checkRateLimit now cfg s).1 =
      { rateLimitInfo := some { effectiveInfo now cfg s with
          resetTime := now + (effectiveInfo now cfg s).timeWindow * 1000,
          remaining := (effectiveInfo now cfg s).maxCalls },
        requestCount := 0, windowStartTime := now } ∧
    (checkRateLimit now cfg s).2 = decide (0 < (effectiveInfo now cfg s).maxCalls) := by
  unfold checkRateLimit
  simp [hreset]

/-- C1 (amended): for sequences in which every call recording is guarded by
its own immediately preceding admitted check (as `makeRequest` and
`getTableData` issue them) and every config outcome advertises a nonnegative
budget, the used counter never exceeds the capacity; and whenever
`now >= resetTime` at an admission check, the check first resets
`requestCount` to 0, `windowStartTime` to `now`, and `resetTime` to
`now + timeWindow * 1000` before deciding admission on the reset counter.
As literally stated — over free interleavings — the claim fails, because two
checks may both pass before either recording lands. -/
theorem c1_quota_guarded_invariant (ops : List GOp) (t0 : Int)
    (hg : ∀ op ∈ ops, goodG op) :
    usedWithinCapacity (runG ops (mkClient t0)) ∧
    (∀ (now : Int) (cfg : Option (Int × Int)) (s : ClientState),
      (effectiveInfo now cfg s).resetTime ≤ now →
      (checkRateLimit now cfg s).1.requestCount = 0 ∧
      (checkRateLimit now cfg s).1.windowStartTime = now ∧
      (checkRateLimit now cfg s).1.rateLimitInfo =
        some { effectiveInfo now cfg s with
                 resetTime := now + (effectiveInfo now cfg s).timeWindow * 1000,
                 remaining := (effectiveInfo now cfg s).maxCalls } ∧
      (checkRateLimit now cfg s).2 = decide (0 < (effectiveInfo now cfg s).maxCalls)) := by
  constructor
  · exact usedWithin_of_rlInv _ (rlInv_runG ops _ hg (rlInv_mkClient t0))
  · intro now cfg s hreset
    obtain ⟨h1, h2⟩ := check_reset_state now cfg s hreset
    rw [h1, h2]
    exact ⟨rfl, rfl, rfl, rfl⟩

/-- Counterexample for C1 as stated: in the free interleaving
check, check, record, record with capacity 1, the counter reaches 2. -/
theorem c1_free_interleaving_exceeds :
    (runOps freeOpsEx (mkClient 0)).requestCount = 2 ∧
    (runOps freeOpsEx (mkClient 0)).rateLimitInfo =
      some { remaining := 0, resetTime := 10000, maxCalls := 1, timeWindow := 10 } ∧
    ¬ usedWithinCapacity (runOps freeOpsEx (mkClient 0)) := by
  refine ⟨by decide, by decide, ?_⟩
  intro hcap
  have h2 := hcap { remaining := 0, resetTime := 10000, maxCalls := 1, timeWindow := 10 }
    (by decide)
  rw [show (runOps freeOpsEx (mkClient 0)).requestCount = 2 from by decide] at h2
  exact absurd h2 (by decide)

/-- Witness for C1 (amended) on a concrete guarded run. -/
theorem c1_quota_guarded_witness :
    (∀ op ∈ goodOpsEx, goodG op) ∧
    usedWithinCapacity (runG goodOpsEx (mkClient 0)) := by
  have hg : ∀ op ∈ goodOpsEx, goodG op := by
    intro op hop
    simp [goodOpsEx] at hop
    rcases hop with rfl | rfl <;> norm_num [goodG, goodCfg]
  exact ⟨hg, (c1_quota_guarded_invariant goodOpsEx 0 hg).1⟩

/-- C7 (amended): in guarded runs from a freshly constructed client with
nonnegative config budgets, `used <= capacity` holds in every reachable
state; `resetTime = windowStartTime + timeWindow * 1000` holds after any
admission check in which the window reset fired.  After lazy initialization
alone the equality can fail, because `initializeRateLimit` sets `resetTime`
from the initialization instant without updating `windowStartTime`. -/
theorem c7_reset_alignment (ops : List GOp) (t0 : Int)
    (hg : ∀ op ∈ ops, goodG op) :
    usedWithinCapacity (runG ops (mkClient t0)) ∧
    (∀ (now : Int) (cfg : Option (Int × Int)) (s : ClientState),
      (effectiveInfo now cfg s).resetTime ≤ now →
      ∀ i, (checkRateLimit now cfg s).1.rateLimitInfo = some i →
        i.resetTime = (checkRateLimit now cfg s).1.windowStartTime + i.timeWindow * 1000) := by
  constructor
  · exact usedWithin_of_rlInv _ (rlInv_runG ops _ hg (rlInv_mkClient t0))
  · intro now cfg s hreset i hi
    rw [(check_reset_state now cfg s hreset).1] at hi ⊢
    simp only [Option.some.injEq] at hi
    subst hi
    rfl

/-- Counterexample for C7 as stated: a first admission check at time 5000 on
a client constructed at time 0 initializes `resetTime = 15000` while
`windowStartTime` stays 0, so `resetTime` differs from
`windowStartTime + timeWindow * 1000 = 10000`. -/
theorem c7_init_breaks_alignment :
    (runG [GOp.checkOnly 5000 none] (mkClient 0)).rateLimitInfo =
      some { remaining := 30, resetTime := 15000, maxCalls := 30, timeWindow := 10 } ∧
    (runG [GOp.checkOnly 5000 none] (mkClient 0)).windowStartTime = 0 ∧
    (15000 : Int) ≠ 0 + 10 * 1000 := by decide

/-- Witness for C7 (amended) on a concrete guarded run. -/
theorem c7_reset_alignment_witness :
    (∀ op ∈ [GOp.checkOnly 3 none], goodG op) ∧
    usedWithinCapacity (runG [GOp.checkOnly 3 none] (mkClient 0)) := by
  have hg : ∀ op ∈ [GOp.checkOnly 3 none], goodG op := by
    intro op hop
    simp at hop
    subst hop
    trivial
  exact ⟨hg, (c7_reset_alignment [GOp.checkOnly 3 none] 0 hg).1⟩

/-! ## Validator lemmas -/

theorem resolveSelection_keys (sel : List (String × List String)) :
    (resolveSelection sel).map Prod.fst = (translateCommonVariables sel).map Prod.fst := by
  simp [resolveSelection, List.map_map]

theorem validateWithMetadata_missing (tableId : String) (ds : Dataset)
    (sel : List (String × List String)) (dims : List (String × DimDef))
    (M : List String) (hdim : ds.dimension = some dims)
    (hMdef : M = (dims.map Prod.fst).filter
        (fun v => !(((resolveSelection sel).map Prod.fst).contains v)))
    (hne : M.isEmpty = false) :
    ∃ restE restS,
      validateSelection (.ok ds) tableId sel =
        { isValid := false,
          errors := ("Missing mandatory variables: " ++ joinComma M) :: restE,
          suggestions :=
            ("SCB tables require all dimensions to be specified. Add these variables to your selection: " ++
               joinComma M) ::
            ("Use \"*\" as value to select all values for a dimension, e.g. \x7b\"" ++
               (M.head?).getD "" ++ "\": [\"*\"]\x7d") :: restS,
          translatedSelection := some (resolveSelection sel) } := by
  subst hMdef
  have h0 : validateSelection (.ok ds) tableId sel = validateWithMetadata tableId ds sel := rfl
  rw [h0]
  unfold validateWithMetadata
  rw [hdim]
  simp only [hne, Bool.false_eq_true, if_false, List.cons_append, List.nil_append,
    List.isEmpty_cons]
  exact ⟨_, _, rfl⟩

/-- C3: for every table metadata with dimensions and every selection, if a
dimension code of the metadata is absent from the translated selection's
keys, `validateSelection` returns `isValid = false`, the omitted code appears
inside an error message, the omitted code appears inside a suggestion, and a
suggestion proposes the wildcard value. -/
theorem c3_validator_completeness (tableId : String) (ds : Dataset)
    (dims : List (String × DimDef)) (sel : List (String × List String)) (d : String)
    (hdim : ds.dimension = some dims) (hmem : d ∈ dims.map Prod.fst)
    (habs : d ∉ (translateCommonVariables sel).map Prod.fst) :
    (validateSelection (.ok ds) tableId sel).isValid = false ∧
    (∃ e ∈ (validateSelection (.ok ds) tableId sel).errors, ∃ p q, e = p ++ (d ++ q)) ∧
    (∃ sg ∈ (validateSelection (.ok ds) tableId sel).suggestions, ∃ p q, sg = p ++ (d ++ q)) ∧
    (∃ sg ∈ (validateSelection (.ok ds) tableId sel).suggestions,
      ∃ p q, sg = p ++ ("*" ++ q)) := by
  set M := (dims.map Prod.fst).filter
      (fun v => !(((resolveSelection sel).map Prod.fst).contains v)) with hMdef
  have hdM : d ∈ M := by
    rw [hMdef]
    refine List.mem_filter.mpr ⟨hmem, ?_⟩
    rw [resolveSelection_keys]
    simpa using habs
  have hne : M.isEmpty = false := by
    cases hM0 : M with
    | nil => rw [hM0] at hdM; exact absurd hdM (List.not_mem_nil d)
    | cons a t => rfl
  obtain ⟨restE, restS, hres⟩ :=
    validateWithMetadata_missing tableId ds sel dims M hdim hMdef hne
  rw [hres]
  obtain ⟨p, q, hjoin⟩ := joinComma_contains hdM
  refine ⟨rfl, ?_, ?_, ?_⟩
  · exact ⟨_, List.mem_cons_self _ _,
      "Missing mandatory variables: " ++ p, q, by rw [hjoin, String.append_assoc]⟩
  · exact ⟨_, List.mem_cons_self _ _,
      "SCB tables require all dimensions to be specified. Add these variables to your selection: " ++ p,
      q, by rw [hjoin, String.append_assoc]⟩
  · refine ⟨_, List.mem_cons_of_mem _ (List.mem_cons_self _ _), "Use \"",
      "\" as value to select all values for a dimension, e.g. \x7b\"" ++
        (M.head?).getD "" ++ "\": [\"*\"]\x7d", ?_⟩
    simp only [← String.append_assoc]
    rw [show (("Use \"" ++ "*" ++
        "\" as value to select all values for a dimension, e.g. \x7b\"") : String) =
        "Use \"*\" as value to select all values for a dimension, e.g. \x7b\"" from by decide]

/-- Witness for C3: the example table requires `Tid`, which the selection
omits. -/
theorem c3_validator_witness :
    dsEx.dimension = some dimsEx ∧ "Tid" ∈ dimsEx.map Prod.fst ∧
    "Tid" ∉ (translateCommonVariables [("region", ["1484"])]).map Prod.fst ∧
    (validateSelection (.ok dsEx) "TAB0001" [("region", ["1484"])]).isValid = false :=
  ⟨rfl, by decide, by decide,
    (c3_validator_completeness "TAB0001" dsEx dimsEx [("region", ["1484"])] "Tid"
      rfl (by decide) (by decide)).1⟩

/-! ## Translator idempotence lemmas -/

theorem mapVariableKey_fixed : ∀ p ∈ variableMapping, mapVariableKey p.2 = p.2 := by decide

theorem mapValue_fixed_specific : ∀ p ∈ valueMapping, ∀ e ∈ p.2, mapValue p.1 e.2 = e.2 := by
  decide

theorem mapValue_star_outputs : ∀ p ∈ valueMapping, ∀ e ∈ starValueMap,
    mapValue p.1 e.2 = e.2 := by decide

theorem jsCharToLower_digit (c : Char) (h : c.isDigit = true) : jsCharToLower c = c := by
  have h' := h
  simp [Char.isDigit] at h'
  unfold jsCharToLower
  split_ifs with h1 h2 h3 h4
  · have ha : ('A' : Char).val.toNat ≤ c.val.toNat := Char.le_def.mp h1.1
    have hb : c.val.toNat ≤ (57 : UInt32).toNat := h'.2
    have hA : ('A' : Char).val.toNat = 65 := by decide
    have h57 : (57 : UInt32).toNat = 57 := by decide
    exact absurd (by omega : (65 : Nat) ≤ 57) (by decide)
  · subst h2; exact absurd h (by decide)
  · subst h3; exact absurd h (by decide)
  · subst h4; exact absurd h (by decide)
  · rfl

theorem digit_beq_dash (c : Char) (h : c.isDigit = true) : (c == '-') = false := by
  cases hbe : (c == '-') with
  | false => rfl
  | true =>
    have he : c = '-' := by simpa using hbe
    subst he
    exact absurd h (by decide)

theorem ym_shape (v : String) (h : matchesYearMonth v = true) :
    ∃ a b c d f g, v.data = [a, b, c, d, '-', f, g] ∧ a.isDigit = true ∧
      b.isDigit = true ∧ c.isDigit = true ∧ d.isDigit = true ∧ f.isDigit = true ∧
      g.isDigit = true := by
  unfold matchesYearMonth at h
  split at h
  · next a b c d e f g heq =>
    simp only [Bool.and_eq_true, beq_iff_eq] at h
    obtain ⟨⟨⟨⟨⟨⟨ha, hb⟩, hc⟩, hd⟩, he⟩, hf⟩, hg⟩ := h
    subst he
    exact ⟨a, b, c, d, f, g, heq, ha, hb, hc, hd, hf, hg⟩
  · exact absurd h (by simp)

theorem replaceFirstDash_ym (a b c d f g : Char) (ha : a.isDigit = true)
    (hb : b.isDigit = true) (hc : c.isDigit = true) (hd : d.isDigit = true) :
    replaceFirstDash [a, b, c, d, '-', f, g] = [a, b, c, d, 'M', f, g] := by
  simp [replaceFirstDash, digit_beq_dash _ ha, digit_beq_dash _ hb, digit_beq_dash _ hc,
    digit_beq_dash _ hd]

theorem jsToLower_ymM (a b c d f g : Char) (ha : a.isDigit = true)
    (hb : b.isDigit = true) (hc : c.isDigit = true) (hd : d.isDigit = true)
    (hf : f.isDigit = true) (hg : g.isDigit = true) :
    jsToLower (String.mk [a, b, c, d, 'M', f, g]) = String.mk [a, b, c, d, 'm', f, g] := by
  simp [jsToLower, jsCharToLower_digit _ ha, jsCharToLower_digit _ hb,
    jsCharToLower_digit _ hc, jsCharToLower_digit _ hd, jsCharToLower_digit _ hf,
    jsCharToLower_digit _ hg, show jsCharToLower 'M' = 'm' from by decide]

theorem tid_lookup_mdigits (a b c d f g : Char) :
    lookupAssoc tidValueMap (String.mk [a, b, c, d, 'm', f, g]) = none := by
  have hL : ("latest" : String).data = ['l', 'a', 't', 'e', 's', 't'] := rfl
  have hR : ("recent" : String).data = ['r', 'e', 'c', 'e', 'n', 't'] := rfl
  have hC : ("current" : String).data = ['c', 'u', 'r', 'r', 'e', 'n', 't'] := rfl
  simp only [tidValueMap, lookupAssoc]
  rw [if_neg, if_neg, if_neg]
  · intro he
    rw [String.ext_iff, hC] at he
    simp at he
  · intro he
    rw [String.ext_iff, hR] at he
    simp at he
  · intro he
    rw [String.ext_iff, hL] at he
    simp at he

theorem star_lookup_mdigits (a b c d f g : Char) :
    lookupAssoc starValueMap (String.mk [a, b, c, d, 'm', f, g]) = none := by
  have h1 : ("total" : String).data = ['t', 'o', 't', 'a', 'l'] := rfl
  have h2 : ("all" : String).data = ['a', 'l', 'l'] := rfl
  have h3 : ("totalt" : String).data = ['t', 'o', 't', 'a', 'l', 't'] := rfl
  have h4 : ("alla" : String).data = ['a', 'l', 'l', 'a'] := rfl
  simp only [starValueMap, lookupAssoc]
  rw [if_neg, if_neg, if_neg, if_neg]
  · intro he; rw [String.ext_iff, h4] at he; simp at he
  · intro he; rw [String.ext_iff, h3] at he; simp at he
  · intro he; rw [String.ext_iff, h2] at he; simp at he
  · intro he; rw [String.ext_iff, h1] at he; simp at he

theorem mapValue_tid_ym (a b c d f g : Char) (ha : a.isDigit = true)
    (hb : b.isDigit = true) (hc : c.isDigit = true) (hd : d.isDigit = true)
    (hf : f.isDigit = true) (hg : g.isDigit = true) :
    mapValue "Tid" (String.mk [a, b, c, d, 'M', f, g]) =
      String.mk [a, b, c, d, 'M', f, g] := by
  have hlow := jsToLower_ymM a b c d f g ha hb hc hd hf hg
  have hyear : matchesYear (String.mk [a, b, c, d, 'M', f, g]) = false := by
    simp [matchesYear, String.length]
  have hym : matchesYearMonth (String.mk [a, b, c, d, 'M', f, g]) = false := by
    simp [matchesYearMonth]
  have hres : mapValue "Tid" (String.mk [a, b, c, d, 'M', f, g]) =
      mapValueFallback "Tid" (String.mk [a, b, c, d, 'M', f, g])
        (String.mk [a, b, c, d, 'm', f, g]) := by
    unfold mapValue
    rw [hlow, show lookupAssoc valueMapping "Tid" = some tidValueMap from rfl]
    simp only [tid_lookup_mdigits]
  rw [hres]
  unfold mapValueFallback
  rw [show ((lookupAssoc valueMapping "*").bind fun general =>
      lookupAssoc general (String.mk [a, b, c, d, 'm', f, g])) = none from
    star_lookup_mdigits a b c d f g]
  simp [hyear, hym]

theorem mapValue_unknown_fixed (varName w : String)
    (h1 : lookupAssoc valueMapping varName = none)
    (hw : w = "tot" ∨ w = "*") : mapValue varName w = w := by
  have hne : varName ≠ "Tid" := by
    intro he; rw [he] at h1; exact absurd h1 (by decide)
  have hb : (varName == "Tid") = false := beq_eq_false_iff_ne.mpr hne
  rcases hw with rfl | rfl
  · have hres : mapValue varName "tot" = mapValueFallback varName "tot" (jsToLower "tot") := by
      unfold mapValue; rw [h1]
    rw [hres]
    unfold mapValueFallback
    rw [show ((lookupAssoc valueMapping "*").bind fun general =>
        lookupAssoc general (jsToLower "tot")) = none from by decide]
    simp [hb]
  · have hres : mapValue varName "*" = mapValueFallback varName "*" (jsToLower "*") := by
      unfold mapValue; rw [h1]
    rw [hres]
    unfold mapValueFallback
    rw [show ((lookupAssoc valueMapping "*").bind fun general =>
        lookupAssoc general (jsToLower "*")) = none from by decide]
    simp [hb]

theorem mapVariableKey_idem (k : String) :
    mapVariableKey (mapVariableKey k) = mapVariableKey k := by
  rcases h1 : lookupAssoc variableMapping k with _ | v
  · rcases h2 : lookupAssoc variableMapping (jsToLower k) with _ | v
    · have hk : mapVariableKey k = k := by unfold mapVariableKey; rw [h1, h2]
      simp only [hk]
    · have hk : mapVariableKey k = v := by unfold mapVariableKey; rw [h1, h2]
      rw [hk]
      exact mapVariableKey_fixed _ (lookupAssoc_mem h2)
  · have hk : mapVariableKey k = v := by unfold mapVariableKey; rw [h1]
    rw [hk]
    exact mapVariableKey_fixed _ (lookupAssoc_mem h1)

theorem mapValue_idem (varName v : String) :
    mapValue varName (mapValue varName v) = mapValue varName v := by
  rcases h1 : lookupAssoc valueMapping varName with _ | spec
  · have hne : varName ≠ "Tid" := by
      intro he; rw [he] at h1; exact absurd h1 (by decide)
    have hb : (varName == "Tid") = false := beq_eq_false_iff_ne.mpr hne
    have hres : mapValue varName v = mapValueFallback varName v (jsToLower v) := by
      unfold mapValue; rw [h1]
    rcases h3 : lookupAssoc starValueMap (jsToLower v) with _ | w
    · have hfb : mapValueFallback varName v (jsToLower v) = v := by
        unfold mapValueFallback
        rw [show ((lookupAssoc valueMapping "*").bind fun general =>
            lookupAssoc general (jsToLower v)) = none from h3]
        simp [hb]
      rw [hres, hfb]
      exact hres.trans hfb
    · have hfb : mapValueFallback varName v (jsToLower v) = w := by
        unfold mapValueFallback
        rw [show ((lookupAssoc valueMapping "*").bind fun general =>
            lookupAssoc general (jsToLower v)) = some w from h3]
      have hw : w = "tot" ∨ w = "*" := by
        have hmem := lookupAssoc_mem h3
        simp [starValueMap] at hmem
        rcases hmem with ⟨_, rfl⟩ | ⟨_, rfl⟩ | ⟨_, rfl⟩ | ⟨_, rfl⟩ <;> simp
      rw [hres, hfb]
      exact mapValue_unknown_fixed varName w h1 hw
  · have hpair := lookupAssoc_mem h1
    rcases h2 : lookupAssoc spec (jsToLower v) with _ | w
    · have hres : mapValue varName v = mapValueFallback varName v (jsToLower v) := by
        unfold mapValue
        rw [h1]
        simp only [h2]
      rcases h3 : lookupAssoc starValueMap (jsToLower v) with _ | w
      · by_cases htid : varName = "Tid"
        · subst htid
          by_cases hyear : matchesYear v = true
          · have hfb : mapValueFallback "Tid" v (jsToLower v) = v := by
              unfold mapValueFallback
              rw [show ((lookupAssoc valueMapping "*").bind fun general =>
                  lookupAssoc general (jsToLower v)) = none from h3]
              simp [hyear]
            rw [hres, hfb]
            exact hres.trans hfb
          · by_cases hym : matchesYearMonth v = true
            · obtain ⟨a, b, c, d, f, g, hdata, ha, hb2, hc, hd2, hf, hg⟩ := ym_shape v hym
              have hfb : mapValueFallback "Tid" v (jsToLower v) =
                  String.mk (replaceFirstDash v.data) := by
                unfold mapValueFallback
                rw [show ((lookupAssoc valueMapping "*").bind fun general =>
                    lookupAssoc general (jsToLower v)) = none from h3]
                simp [hyear, hym]
              rw [hres, hfb]
              rw [hdata, replaceFirstDash_ym a b c d f g ha hb2 hc hd2]
              exact mapValue_tid_ym a b c d f g ha hb2 hc hd2 hf hg
            · have hfb : mapValueFallback "Tid" v (jsToLower v) = v := by
                unfold mapValueFallback
                rw [show ((lookupAssoc valueMapping "*").bind fun general =>
                    lookupAssoc general (jsToLower v)) = none from h3]
                simp [hyear, hym]
              rw [hres, hfb]
              exact hres.trans hfb
        · have hbt : (varName == "Tid") = false := beq_eq_false_iff_ne.mpr htid
          have hfb : mapValueFallback varName v (jsToLower v) = v := by
            unfold mapValueFallback
            rw [show ((lookupAssoc valueMapping "*").bind fun general =>
                lookupAssoc general (jsToLower v)) = none from h3]
            simp [hbt]
          rw [hres, hfb]
          exact hres.trans hfb
      · have hfb : mapValueFallback varName v (jsToLower v) = w := by
          unfold mapValueFallback
          rw [show ((lookupAssoc valueMapping "*").bind fun general =>
              lookupAssoc general (jsToLower v)) = some w from h3]
        rw [hres, hfb]
        exact mapValue_star_outputs _ hpair _ (lookupAssoc_mem h3)
    · have hres : mapValue varName v = w := by
        unfold mapValue
        rw [h1]
        simp only [h2]
      rw [hres]
      exact mapValue_fixed_specific _ hpair _ (lookupAssoc_mem h2)

/-- C8: the name translator and the value translator are total (they are
plain functions in this embedding and consult only static tables) and
idempotent: unknown keys pass through unchanged, applying the name
translation twice equals applying it once, and applying the value
translation twice to any value list equals applying it once. -/
theorem c8_translators_idempotent (k varName : String) (vs : List String) :
    (lookupAssoc variableMapping k = none →
      lookupAssoc variableMapping (jsToLower k) = none → mapVariableKey k = k) ∧
    mapVariableKey (mapVariableKey k) = mapVariableKey k ∧
    translateCommonValues (translateCommonValues vs varName) varName =
      translateCommonValues vs varName := by
  refine ⟨?_, mapVariableKey_idem k, ?_⟩
  · intro h1 h2
    unfold mapVariableKey
    rw [h1, h2]
  · unfold translateCommonValues
    rw [List.map_map]
    simp [Function.comp, mapValue_idem]

/-- Witness for C8: an unknown key passes through the name translator
unchanged. -/
theorem c8_translators_witness :
    (lookupAssoc variableMapping "customcode" = none ∧
     lookupAssoc variableMapping (jsToLower "customcode") = none) ∧
    mapVariableKey "customcode" = "customcode" := by
  have h := (c8_translators_idempotent "customcode" "Tid" []).1
  exact ⟨⟨by decide, by decide⟩, h (by decide) (by decide)⟩
